import Mathlib

/-!
Verification of the Photographic Log builder's core algorithms:
the entry renumberer and list mutators, the form validator, the
two pagination strategies (measured flow and fixed grouping), the
entry-height oracle, the image normalizer's crop arithmetic, and the
JSON project save/load round-trip.  All definitions are shallow
embeddings of the TypeScript source; external text/image measurement
is modelled as an oracle parameter, and pixel heights are rationals.
-/

namespace PhotoLog

/-- The document-level header record (`HeaderData` in `types.ts`). -/
structure HeaderData where
  proponent : String
  projectName : String
  location : String
  date : String
  projectNumber : String
deriving DecidableEq

/-- One photo entry (`PhotoData` in `types.ts`); `imageUrl` is nullable. -/
structure PhotoData where
  id : Nat
  photoNumber : String
  date : String
  location : String
  description : String
  imageUrl : Option String
deriving DecidableEq

/-- `renumberPhotos` from `App.tsx`: map with index, resetting
`photoNumber` to the decimal string of the 1-based position. -/
def renumberPhotos (photos : List PhotoData) : List PhotoData :=
  photos.mapIdx (fun index photo => { photo with photoNumber := Nat.repr (index + 1) })

/-- The fresh id chosen by `addPhoto` in `App.tsx`:
`photos.length > 0 ? Math.max(...photos.map(p => p.id)) + 1 : 1`. -/
def newPhotoId (photos : List PhotoData) : Nat :=
  if photos.length > 0 then (photos.map (fun p => p.id)).foldl Nat.max 0 + 1 else 1

/-- The object literal appended by `addPhoto` in `App.tsx`. -/
def newPhotoEntry (photos : List PhotoData) : PhotoData :=
  { id := newPhotoId photos
    photoNumber := Nat.repr (photos.length + 1)
    date := ""
    location := ""
    description := ""
    imageUrl := none }

/-- `addPhoto` from `App.tsx`: append one fresh entry (no renumbering of
the existing entries). -/
def addPhoto (photos : List PhotoData) : List PhotoData :=
  photos ++ [newPhotoEntry photos]

/-- `removePhoto` from `App.tsx`: filter the id out, then renumber. -/
def removePhoto (photos : List PhotoData) (pid : Nat) : List PhotoData :=
  renumberPhotos (photos.filter (fun p => p.id ≠ pid))

inductive MoveDirection where
  | up
  | down
deriving DecidableEq

/-- The destructuring swap `[a[i], a[j]] = [a[j], a[i]]`. -/
def listSwap {α : Type} (l : List α) (i j : Nat) : List α :=
  match l[i]?, l[j]? with
  | some a, some b => (l.set i b).set j a
  | _, _ => l

/-- `movePhoto` from `App.tsx`: locate the id, swap with the adjacent
slot in the requested direction, renumber; out-of-range moves and
unknown ids return the list unchanged. -/
def movePhoto (photos : List PhotoData) (pid : Nat) (direction : MoveDirection) :
    List PhotoData :=
  match photos.findIdx? (fun p => p.id == pid) with
  | none => photos
  | some index =>
    let newIndex : Int := if direction = .up then (index : Int) - 1 else (index : Int) + 1
    if newIndex < 0 ∨ (photos.length : Int) ≤ newIndex then photos
    else renumberPhotos (listSwap photos index newIndex.toNat)

/-- The derived-numbering invariant: the `photoNumber` fields read in
order are exactly the decimal strings `"1"`, ..., `"N"`. -/
def numbered (photos : List PhotoData) : Prop :=
  photos.map (fun p => p.photoNumber)
    = (List.range photos.length).map (fun i => Nat.repr (i + 1))

/-- Renumbering always re-establishes the 1..N numbering. -/
theorem numbered_renumberPhotos (l : List PhotoData) : numbered (renumberPhotos l) := by
  unfold numbered renumberPhotos
  simp only [List.mapIdx_eq_enum_map, List.map_map, List.length_map, List.enum_length]
  rw [← List.enum_map_fst l, List.map_map]
  rfl

/-- Appending the fresh entry of `addPhoto` preserves the numbering. -/
theorem numbered_addPhoto (l : List PhotoData) (h : numbered l) :
    numbered (addPhoto l) := by
  unfold numbered at h ⊢
  unfold addPhoto newPhotoEntry
  simp only [List.map_append, List.length_append, List.map_cons, List.map_nil,
    List.length_cons, List.length_nil, Nat.zero_add]
  rw [h, List.range_succ, List.map_append]
  rfl

/-- Claim C2 (amended): provided the starting list already satisfies the
1..N numbering invariant, each List Mutator operation (add, remove with
any id, move with any id and direction) yields a list whose
`photoNumber` fields read in order are exactly `"1"`, ..., `"N"`:
`addPhoto` preserves the invariant, while `removePhoto` and `movePhoto`
renumber (or leave the list unchanged on a no-op move). -/
theorem listMutator_numbering (photos : List PhotoData) (h : numbered photos)
    (pid : Nat) (direction : MoveDirection) :
    numbered (addPhoto photos) ∧ numbered (removePhoto photos pid)
      ∧ numbered (movePhoto photos pid direction) := by
  refine ⟨numbered_addPhoto photos h, numbered_renumberPhotos _, ?_⟩
  unfold movePhoto
  cases photos.findIdx? (fun p => p.id == pid) with
  | none => exact h
  | some index =>
    cases direction <;> dsimp only <;> split <;> split <;>
      first
        | exact h
        | exact numbered_renumberPhotos _

/-- Claim C2 counterexample: `addPhoto` does not renumber the entries
already in the list, so applied to the (arbitrary) one-entry list whose
existing `photoNumber` is `"7"` it returns photo numbers `["7", "2"]`,
not `["1", "2"]`. -/
theorem listMutator_numbering_counterexample :
    ¬ numbered (addPhoto [⟨1, "7", "", "", "", none⟩]) := by
  unfold numbered
  decide

/-- Claim C2 witness: the amended invariant instantiated on a concrete
correctly numbered two-entry list, removing id 1 and moving id 2 up. -/
theorem listMutator_numbering_witness :
    numbered (addPhoto [⟨1, "1", "", "", "", none⟩, ⟨2, "2", "", "", "", none⟩])
      ∧ numbered (removePhoto [⟨1, "1", "", "", "", none⟩, ⟨2, "2", "", "", "", none⟩] 1)
      ∧ numbered (movePhoto [⟨1, "1", "", "", "", none⟩, ⟨2, "2", "", "", "", none⟩] 2
          MoveDirection.up) :=
  listMutator_numbering [⟨1, "1", "", "", "", none⟩, ⟨2, "2", "", "", "", none⟩]
    (by unfold numbered; decide) 1 MoveDirection.up

/-- Claim C6: `renumberPhotos` returns a list of the same length (and
order), is total on the empty list, and at every index `i` the output
entry is the input entry with only `photoNumber` replaced by the decimal
string of `i + 1` (all other fields unchanged). -/
theorem renumberPhotos_spec (l : List PhotoData) (i : Nat) (h : i < l.length) :
    (renumberPhotos l).length = l.length ∧
    renumberPhotos [] = [] ∧
    (renumberPhotos l).get ⟨i, by simpa [renumberPhotos, List.length_mapIdx] using h⟩
      = { l.get ⟨i, h⟩ with photoNumber := Nat.repr (i + 1) } := by
  refine ⟨by simp [renumberPhotos, List.length_mapIdx], rfl, ?_⟩
  exact List.get_mapIdx l _ i h

/-- Claim C6 witness: renumbering a concrete two-entry list rewrites the
second entry's photo number to `"2"` and keeps its other fields. -/
theorem renumberPhotos_spec_witness :
    (renumberPhotos [⟨1, "9", "d", "l", "x", none⟩, ⟨2, "", "e", "m", "y", some "u"⟩]).length = 2 ∧
    renumberPhotos [] = [] ∧
    (renumberPhotos [⟨1, "9", "d", "l", "x", none⟩, ⟨2, "", "e", "m", "y", some "u"⟩]).get
        ⟨1, by decide⟩
      = ⟨2, "2", "e", "m", "y", some "u"⟩ := by
  have h := renumberPhotos_spec
    [⟨1, "9", "d", "l", "x", none⟩, ⟨2, "", "e", "m", "y", some "u"⟩] 1 (by decide)
  exact ⟨h.1, h.2.1, by simpa using h.2.2⟩

/-- Every element of a list is bounded by a `foldl Nat.max` over it, and
so is the initial accumulator. -/
theorem le_foldl_max (l : List Nat) (a : Nat) :
    (∀ x ∈ l, x ≤ l.foldl Nat.max a) ∧ a ≤ l.foldl Nat.max a := by
  induction l generalizing a with
  | nil => exact ⟨by simp, Nat.le_refl a⟩
  | cons b t ih =>
    refine ⟨?_, ?_⟩
    · intro x hx
      rcases List.mem_cons.mp hx with rfl | hx
      · exact le_trans (Nat.le_max_right a x) ((ih (Nat.max a x)).2)
      · exact (ih (Nat.max a b)).1 x hx
    · exact le_trans (Nat.le_max_left a b) ((ih (Nat.max a b)).2)

/-- Claim C10: for every entry list — the empty list included —
`addPhoto` returns the input list with exactly one new entry appended;
the new entry's id differs from the id of every entry already in the
list, and its date, location and description are empty strings with a
null image. -/
theorem addPhoto_spec (photos : List PhotoData) :
    addPhoto photos = photos ++ [newPhotoEntry photos] ∧
    (∀ p ∈ photos, p.id ≠ (newPhotoEntry photos).id) ∧
    (newPhotoEntry photos).date = "" ∧ (newPhotoEntry photos).location = "" ∧
    (newPhotoEntry photos).description = "" ∧ (newPhotoEntry photos).imageUrl = none := by
  refine ⟨rfl, ?_, rfl, rfl, rfl, rfl⟩
  intro p hp
  have hlen : photos.length > 0 := List.length_pos.mpr (List.ne_nil_of_mem hp)
  have hle : p.id ≤ (photos.map (fun q => q.id)).foldl Nat.max 0 :=
    (le_foldl_max (photos.map (fun q => q.id)) 0).1 p.id
      (List.mem_map_of_mem (fun q => q.id) hp)
  show p.id ≠ newPhotoId photos
  unfold newPhotoId
  rw [if_pos hlen]
  omega

/-- Claim C10 witness: adding to the empty list appends a single entry
(with the initial id 1) and empty fields, and adding to a concrete
two-entry list with ids 5 and 2 appends a single entry whose fresh id 6
differs from both existing ids. -/
theorem addPhoto_spec_witness :
    addPhoto [] = [] ++ [newPhotoEntry []] ∧
    (newPhotoEntry []).id = 1 ∧
    (newPhotoEntry []).date = "" ∧ (newPhotoEntry []).imageUrl = none ∧
    addPhoto [⟨5, "1", "a", "b", "c", some "u"⟩, ⟨2, "2", "d", "e", "f", none⟩]
        = [⟨5, "1", "a", "b", "c", some "u"⟩, ⟨2, "2", "d", "e", "f", none⟩]
          ++ [newPhotoEntry [⟨5, "1", "a", "b", "c", some "u"⟩, ⟨2, "2", "d", "e", "f", none⟩]] ∧
    (5 : Nat) ≠ (newPhotoEntry
        [⟨5, "1", "a", "b", "c", some "u"⟩, ⟨2, "2", "d", "e", "f", none⟩]).id ∧
    (2 : Nat) ≠ (newPhotoEntry
        [⟨5, "1", "a", "b", "c", some "u"⟩, ⟨2, "2", "d", "e", "f", none⟩]).id ∧
    (newPhotoEntry [⟨5, "1", "a", "b", "c", some "u"⟩, ⟨2, "2", "d", "e", "f", none⟩]).date = "" ∧
    (newPhotoEntry
        [⟨5, "1", "a", "b", "c", some "u"⟩, ⟨2, "2", "d", "e", "f", none⟩]).location = "" ∧
    (newPhotoEntry
        [⟨5, "1", "a", "b", "c", some "u"⟩, ⟨2, "2", "d", "e", "f", none⟩]).description = "" ∧
    (newPhotoEntry
        [⟨5, "1", "a", "b", "c", some "u"⟩, ⟨2, "2", "d", "e", "f", none⟩]).imageUrl = none := by
  have h0 := addPhoto_spec []
  have h2 := addPhoto_spec [⟨5, "1", "a", "b", "c", some "u"⟩, ⟨2, "2", "d", "e", "f", none⟩]
  exact ⟨h0.1, by decide, h0.2.2.1, h0.2.2.2.2.2, h2.1,
    h2.2.1 ⟨5, "1", "a", "b", "c", some "u"⟩ (by decide),
    h2.2.1 ⟨2, "2", "d", "e", "f", none⟩ (by decide),
    h2.2.2.1, h2.2.2.2.1, h2.2.2.2.2.1, h2.2.2.2.2.2⟩

/-! ## Measured-flow pagination (`handleSavePdf` in `App.tsx`)

The jsPDF drawing calls are abstracted away: `drawHeader` is modelled by
the vertical cursor position `headerBottomY` it returns, the per-entry
measurement (`calculateEntryHeight` / `drawPhotoEntry`) by an oracle
`measure : PhotoData → ℚ`, and a drawn footer by the footer string it
prints.  The loop keeps a running cursor `yPos` and a current page. -/

/-- The layout constants of `handleSavePdf`: in the source
`footerHeight = 15`, `separatorHeight = 15`, `pageHeight` is the letter
page height and `headerBottomY` is the cursor returned by `drawHeader`
(it depends on the text-measurement oracle, so it is a parameter). -/
structure PdfLayoutConfig where
  pageHeight : ℚ
  footerHeight : ℚ
  separatorHeight : ℚ
  headerBottomY : ℚ
deriving DecidableEq

/-- `drawFooter`: the text printed at the bottom of page `n`. -/
def footerText (n : Nat) : String := "Page " ++ Nat.repr n

/-- The loop state of `handleSavePdf`: the 1-based current page number,
the vertical cursor, the pages already closed (entries plus the drawn
footer), and the entries placed on the still-open page. -/
structure PdfPageState where
  currentPage : Nat
  yPos : ℚ
  closedPages : List (List PhotoData × String)
  currentEntries : List PhotoData
deriving DecidableEq

/-- One iteration of the `for` loop in `handleSavePdf`: if the measured
entry height plus the separator would push the cursor past
`pageHeight - footerHeight`, the current page's footer is drawn and a
new page is opened with a fresh header block; the entry is then placed
(never split) and the cursor advanced past it and the separator. -/
def placePhoto (cfg : PdfLayoutConfig) (measure : PhotoData → ℚ)
    (st : PdfPageState) (photo : PhotoData) : PdfPageState :=
  let entryHeight := measure photo
  let spaceNeeded := entryHeight + cfg.separatorHeight
  let maxYPos := cfg.pageHeight - cfg.footerHeight
  let stepped :=
    if maxYPos < st.yPos + spaceNeeded then
      { currentPage := st.currentPage + 1
        yPos := cfg.headerBottomY
        closedPages := st.closedPages ++ [(st.currentEntries, footerText st.currentPage)]
        currentEntries := [] }
    else st
  { stepped with
    currentEntries := stepped.currentEntries ++ [photo]
    yPos := stepped.yPos + entryHeight + cfg.separatorHeight }

/-- The state before the loop: page 1, cursor below the first header. -/
def initialPageState (cfg : PdfLayoutConfig) : PdfPageState :=
  ⟨1, cfg.headerBottomY, [], []⟩

/-- The whole `handleSavePdf` layout loop. -/
def handleSavePdfLayout (cfg : PdfLayoutConfig) (measure : PhotoData → ℚ)
    (photos : List PhotoData) : PdfPageState :=
  photos.foldl (placePhoto cfg measure) (initialPageState cfg)

/-- The emitted pages: all closed pages followed by the final page, whose
footer is drawn after the loop. -/
def pdfPages (cfg : PdfLayoutConfig) (measure : PhotoData → ℚ)
    (photos : List PhotoData) : List (List PhotoData × String) :=
  let st := handleSavePdfLayout cfg measure photos
  st.closedPages ++ [(st.currentEntries, footerText st.currentPage)]

/-- Each loop iteration appends its entry to the open page, so the pages
flatten back to the processed prefix. -/
theorem placePhoto_foldl_flatten (cfg : PdfLayoutConfig) (measure : PhotoData → ℚ)
    (photos : List PhotoData) : ∀ st : PdfPageState,
    (((photos.foldl (placePhoto cfg measure) st).closedPages.map Prod.fst).flatten
        ++ (photos.foldl (placePhoto cfg measure) st).currentEntries)
      = ((st.closedPages.map Prod.fst).flatten ++ st.currentEntries) ++ photos := by
  induction photos with
  | nil => intro st; simp
  | cons photo rest ih =>
    intro st
    rw [List.foldl_cons, ih (placePhoto cfg measure st photo)]
    unfold placePhoto
    dsimp only
    split <;> simp

/-- Claim C1: the measured-flow pagination processes entries in order
with a vertical cursor.  (1) An entry of measured height `h` is placed
on the current page exactly when `yPos + h + separatorHeight` does not
exceed `pageHeight - footerHeight`, advancing only the cursor.  (2)
Otherwise the current page is closed with its footer drawn, and the
entry — however tall, never split — is placed as the first entry of a
fresh page whose cursor restarts below a fresh header block.  (3) Over
any run the produced pages flatten back to the entry list in order, so
every entry (including one taller than a full page) is placed whole on
exactly one page. -/
theorem handleSavePdf_measuredFlow (cfg : PdfLayoutConfig) (measure : PhotoData → ℚ)
    (st : PdfPageState) (photo : PhotoData) (photos : List PhotoData) :
    (st.yPos + measure photo + cfg.separatorHeight ≤ cfg.pageHeight - cfg.footerHeight →
      placePhoto cfg measure st photo =
        { st with
          currentEntries := st.currentEntries ++ [photo]
          yPos := st.yPos + measure photo + cfg.separatorHeight }) ∧
    (cfg.pageHeight - cfg.footerHeight < st.yPos + measure photo + cfg.separatorHeight →
      placePhoto cfg measure st photo =
        { currentPage := st.currentPage + 1
          yPos := cfg.headerBottomY + measure photo + cfg.separatorHeight
          closedPages := st.closedPages ++ [(st.currentEntries, footerText st.currentPage)]
          currentEntries := [photo] }) ∧
    ((pdfPages cfg measure photos).map Prod.fst).flatten = photos := by
  refine ⟨?_, ?_, ?_⟩
  · intro hfit
    rw [add_assoc] at hfit
    unfold placePhoto
    dsimp only
    rw [if_neg (not_lt.mpr hfit)]
  · intro hover
    rw [add_assoc] at hover
    unfold placePhoto
    dsimp only
    rw [if_pos hover]
    simp [add_assoc]
  · unfold pdfPages handleSavePdfLayout
    dsimp only
    rw [List.map_append, List.flatten_append]
    have h := placePhoto_foldl_flatten cfg measure photos (initialPageState cfg)
    simp only [initialPageState, List.map_nil, List.flatten_nil, List.nil_append] at h
    simpa using h

/-- Claim C1 witness: with page height 250, footer 15, separator 15 and
header bottom 35, a 100-high entry fits at cursor 35 (35+100+15 ≤ 235),
a second one overflows at cursor 150 (150+100+15 > 235) and opens page
2 with the entry on top, and two 100-high entries flatten back from the
produced pages. -/
theorem handleSavePdf_measuredFlow_witness :
    placePhoto ⟨250, 15, 15, 35⟩ (fun _ => 100)
        ⟨1, 35, [], []⟩ ⟨1, "1", "d", "l", "x", none⟩ =
      ⟨1, 150, [], [⟨1, "1", "d", "l", "x", none⟩]⟩ ∧
    placePhoto ⟨250, 15, 15, 35⟩ (fun _ => 100)
        ⟨1, 150, [], [⟨1, "1", "d", "l", "x", none⟩]⟩ ⟨2, "2", "d", "l", "y", none⟩ =
      ⟨2, 150, [([⟨1, "1", "d", "l", "x", none⟩], "Page 1")], [⟨2, "2", "d", "l", "y", none⟩]⟩ ∧
    ((pdfPages ⟨250, 15, 15, 35⟩ (fun _ => 100)
        [⟨1, "1", "d", "l", "x", none⟩, ⟨2, "2", "d", "l", "y", none⟩]).map Prod.fst).flatten
      = [⟨1, "1", "d", "l", "x", none⟩, ⟨2, "2", "d", "l", "y", none⟩] := by
  have h1 := handleSavePdf_measuredFlow ⟨250, 15, 15, 35⟩ (fun _ => 100)
    ⟨1, 35, [], []⟩ ⟨1, "1", "d", "l", "x", none⟩
    [⟨1, "1", "d", "l", "x", none⟩, ⟨2, "2", "d", "l", "y", none⟩]
  have h2 := handleSavePdf_measuredFlow ⟨250, 15, 15, 35⟩ (fun _ => 100)
    ⟨1, 150, [], [⟨1, "1", "d", "l", "x", none⟩]⟩ ⟨2, "2", "d", "l", "y", none⟩
    [⟨1, "1", "d", "l", "x", none⟩, ⟨2, "2", "d", "l", "y", none⟩]
  refine ⟨?_, ?_, h2.2.2⟩
  · rw [h1.1 (by norm_num)]
    simp only [PdfPageState.mk.injEq, and_true, true_and]
    norm_num
  · rw [h2.2.1 (by norm_num)]
    simp only [PdfPageState.mk.injEq, and_true, true_and]
    exact ⟨by norm_num, by decide⟩

/-! ## Fixed-grouping pagination (`chunk` / `printableContent` in the
rasterized variant)

Pages are A4-sized DOM blocks captured whole, so there is no overflow
detection: the photo list is chunked into groups of 2 and each group
becomes one page with a repeated header and a `Page i of total` footer;
an empty list yields a single placeholder page. -/

/-- `chunk` from the rasterized variant:
`Array.from({length: ceil(n/size)}, (v, i) => arr.slice(i*size, i*size+size))`. -/
def chunk {α : Type} (arr : List α) (size : Nat) : List (List α) :=
  (List.range ((arr.length + size - 1) / size)).map
    (fun i => (arr.drop (i * size)).take size)

/-- What a printable page holds: either a group of photo entries or the
"no photos" placeholder body. -/
inductive PrintBody where
  | photoEntries (ps : List PhotoData)
  | noPhotosPlaceholder
deriving DecidableEq

/-- One rendered printable page: repeated header, body, footer line. -/
structure PrintPage where
  header : HeaderData
  body : PrintBody
  footerLine : String
deriving DecidableEq

/-- The JSX footer `Page {pageIndex + 1} of {photoPages.length || 1}`. -/
def pageFooterText (pageIndex total : Nat) : String :=
  "Page " ++ Nat.repr (pageIndex + 1) ++ " of "
    ++ Nat.repr (if total = 0 then 1 else total)

/-- `printableContent`: one page per chunk of 2 photos, each with a
fresh header and footer, followed by the placeholder page exactly when
there are no chunks. -/
def printableContent (hd : HeaderData) (photos : List PhotoData) : List PrintPage :=
  let photoPages := chunk photos 2
  photoPages.mapIdx
      (fun pageIndex pagePhotos =>
        ⟨hd, .photoEntries pagePhotos, pageFooterText pageIndex photoPages.length⟩)
    ++ (if photoPages.length = 0 then [⟨hd, .noPhotosPlaceholder, "Page 1 of 1"⟩] else [])

/-- Claim C3: with groupSize 2, a list of N ≥ 1 entries renders
ceil(N/2) pages; page i (0-based) holds exactly the i-th group of two
consecutive entries — two entries on every page except the last page of
an odd list, which holds one — under a repeated header and a
`Page i+1 of total` footer.  An empty list renders exactly one page
with the header, the "no photos" placeholder body and footer
`Page 1 of 1`. -/
theorem printableContent_fixedGrouping (hd : HeaderData) (photos : List PhotoData) :
    (1 ≤ photos.length →
      (printableContent hd photos).length = (photos.length + 1) / 2 ∧
      ∀ i : Nat, ∀ hi : i < (printableContent hd photos).length,
        (printableContent hd photos).get ⟨i, hi⟩
            = ⟨hd, .photoEntries ((photos.drop (i * 2)).take 2),
                pageFooterText i ((photos.length + 1) / 2)⟩ ∧
          ((photos.drop (i * 2)).take 2).length
            = (if i + 1 = (photos.length + 1) / 2 ∧ photos.length % 2 = 1 then 1 else 2)) ∧
    printableContent hd [] = [⟨hd, .noPhotosPlaceholder, "Page 1 of 1"⟩] := by
  constructor
  · intro hpos
    have hchunklen : (chunk photos 2).length = (photos.length + 1) / 2 := by
      simp only [chunk, List.length_map, List.length_range]
      omega
    have hlen : (printableContent hd photos).length = (photos.length + 1) / 2 := by
      unfold printableContent
      dsimp only
      rw [List.length_append, List.length_mapIdx, hchunklen, if_neg (by omega)]
      simp
    refine ⟨hlen, ?_⟩
    intro i hi
    have hi2 : i < (photos.length + 1) / 2 := hlen ▸ hi
    have hi3 : i < (chunk photos 2).length := by rw [hchunklen]; exact hi2
    have hcg : (chunk photos 2).get ⟨i, hi3⟩ = (photos.drop (i * 2)).take 2 := by
      simp [chunk, List.get_eq_getElem]
    have hget : (printableContent hd photos).get ⟨i, hi⟩
        = ⟨hd, .photoEntries ((photos.drop (i * 2)).take 2),
            pageFooterText i ((photos.length + 1) / 2)⟩ := by
      have hmap := List.get_mapIdx (chunk photos 2)
        (fun pageIndex pagePhotos =>
          (⟨hd, .photoEntries pagePhotos,
            pageFooterText pageIndex (chunk photos 2).length⟩ : PrintPage)) i hi3
      rw [List.get_eq_getElem] at hmap
      unfold printableContent
      dsimp only
      rw [List.get_eq_getElem]
      rw [List.getElem_append_left (by rw [List.length_mapIdx]; exact hi3)]
      rw [hmap, hcg, hchunklen]
    refine ⟨hget, ?_⟩
    rw [List.length_take, List.length_drop]
    by_cases hodd : photos.length % 2 = 1
    · by_cases hlast : i + 1 = (photos.length + 1) / 2
      · rw [if_pos ⟨hlast, hodd⟩]
        omega
      · rw [if_neg (fun hc => hlast hc.1)]
        omega
    · rw [if_neg (fun hc => hodd hc.2)]
      omega
  · rfl

/-- A concrete header record used by witnesses. -/
def sampleHeader : HeaderData := ⟨"Acme", "Plant", "Site 4", "May 5 2024", "P-77"⟩

/-- A concrete five-entry photo list used by witnesses. -/
def samplePhotos5 : List PhotoData :=
  [⟨1, "1", "d", "l", "a", none⟩, ⟨2, "2", "d", "l", "b", none⟩,
   ⟨3, "3", "d", "l", "c", none⟩, ⟨4, "4", "d", "l", "e", none⟩,
   ⟨5, "5", "d", "l", "f", none⟩]

/-- Claim C3 witness: five entries yield three pages, with the third
page holding exactly one entry. -/
theorem printableContent_fixedGrouping_witness :
    (printableContent sampleHeader samplePhotos5).length = 3 ∧
    ((samplePhotos5.drop (2 * 2)).take 2).length = 1 := by
  have h := (printableContent_fixedGrouping sampleHeader samplePhotos5).1 (by decide)
  refine ⟨h.1.trans (by decide), ?_⟩
  have h2 := (h.2 2 (by rw [h.1]; decide)).2
  exact h2.trans (by decide)

/-! ## The per-entry height oracle (`calculateEntryHeight` in `App.tsx`) -/

/-- The external measurement collaborators: jsPDF's
`getTextDimensions(text, {maxWidth}).h` on the scratch document, and the
decoded native width/height of an image url. -/
structure MeasureOracle where
  textDimH : String → ℚ → ℚ
  imgW : String → ℚ
  imgH : String → ℚ

/-- `calculateEntryHeight` from `App.tsx`: text fields are measured in
the 40% text column (label and value joined as `label: value`, plus a
4mm pad; the description as label plus 2mm then the wrapped value), the
image is scaled to the 60% image column preserving its native aspect
ratio, and the entry height is the max of the two. -/
def calculateEntryHeight (m : MeasureOracle) (contentWidth : ℚ) (photo : PhotoData) : ℚ :=
  let gap : ℚ := 5
  let availableWidth := contentWidth - gap
  let textBlockWidth := availableWidth * (40 / 100)
  let imageBlockWidth := availableWidth * (60 / 100)
  let measureField : String → String → ℚ := fun label value =>
    m.textDimH (label ++ ": " ++ value) textBlockWidth + 4
  let textHeight : ℚ := 0
  let textHeight := textHeight + measureField "Photo" photo.photoNumber
  let textHeight := textHeight + measureField "Date" photo.date
  let textHeight := textHeight + measureField "Location" photo.location
  let textHeight := textHeight + (m.textDimH "Description" textBlockWidth + 2)
  let textHeight := textHeight + m.textDimH photo.description textBlockWidth
  let scaledHeight : ℚ :=
    match photo.imageUrl with
    | none => 0
    | some url => m.imgH url * (imageBlockWidth / m.imgW url)
  max textHeight scaledHeight

/-- Modelled from the spec: the 40%-wide text column of an entry. -/
def textColumnWidth (contentWidth : ℚ) : ℚ := (contentWidth - 5) * (40 / 100)

/-- Modelled from the spec: the 60%-wide image column of an entry. -/
def imageColumnWidth (contentWidth : ℚ) : ℚ := (contentWidth - 5) * (60 / 100)

/-- Modelled from the spec: the measured heights of the Photo, Date,
Location and Description text fields in the text column. -/
def textColumnHeights (m : MeasureOracle) (contentWidth : ℚ) (photo : PhotoData) : List ℚ :=
  [m.textDimH ("Photo: " ++ photo.photoNumber) (textColumnWidth contentWidth) + 4,
   m.textDimH ("Date: " ++ photo.date) (textColumnWidth contentWidth) + 4,
   m.textDimH ("Location: " ++ photo.location) (textColumnWidth contentWidth) + 4,
   m.textDimH "Description" (textColumnWidth contentWidth) + 2
     + m.textDimH photo.description (textColumnWidth contentWidth)]

/-- Modelled from the spec: `imageNativeHeight * (imageBlockWidth /
imageNativeWidth)`, and 0 when there is no image. -/
def scaledImageHeight (m : MeasureOracle) (contentWidth : ℚ) (photo : PhotoData) : ℚ :=
  match photo.imageUrl with
  | none => 0
  | some url => m.imgH url * (imageColumnWidth contentWidth / m.imgW url)

/-- Claim C4: for every measurement oracle and entry, the height oracle
returns `max(textHeight, scaledImageHeight)` where `textHeight` is the
summed measured heights of the Photo/Date/Location/Description fields in
the 40% text column, and `scaledImageHeight` is
`imageNativeHeight * (imageBlockWidth / imageNativeWidth)` with the
image block 60% of the available width — and 0 when `imageUrl` is null. -/
theorem calculateEntryHeight_spec (m : MeasureOracle) (contentWidth : ℚ)
    (photo : PhotoData) :
    calculateEntryHeight m contentWidth photo
        = max (textColumnHeights m contentWidth photo).sum
            (scaledImageHeight m contentWidth photo) ∧
    (photo.imageUrl = none → scaledImageHeight m contentWidth photo = 0) ∧
    (∀ url, photo.imageUrl = some url →
      scaledImageHeight m contentWidth photo
        = m.imgH url * (((contentWidth - 5) * (60 / 100)) / m.imgW url)) := by
  refine ⟨?_, ?_, ?_⟩
  · unfold calculateEntryHeight scaledImageHeight textColumnHeights
      textColumnWidth imageColumnWidth
    dsimp only
    have hP : ("Photo" ++ ": " : String) = "Photo: " := rfl
    have hD : ("Date" ++ ": " : String) = "Date: " := rfl
    have hL : ("Location" ++ ": " : String) = "Location: " := rfl
    cases photo.imageUrl <;>
      · congr 1
        simp only [List.sum_cons, List.sum_nil, hP, hD, hL]
        ring
  · intro hnone
    unfold scaledImageHeight
    rw [hnone]
  · intro url hsome
    unfold scaledImageHeight imageColumnWidth
    rw [hsome]

/-- Claim C4 witness: the height formula evaluated with a constant
oracle on a concrete entry with an image (native 400×300, so the scaled
height is 300 * (60%·(200-5) / 400)) and on one without an image. -/
theorem calculateEntryHeight_spec_witness :
    calculateEntryHeight ⟨fun _ _ => 10, fun _ => 400, fun _ => 300⟩ 200
        ⟨1, "1", "d", "l", "x", some "u"⟩
      = max (textColumnHeights ⟨fun _ _ => 10, fun _ => 400, fun _ => 300⟩ 200
          ⟨1, "1", "d", "l", "x", some "u"⟩).sum
        (scaledImageHeight ⟨fun _ _ => 10, fun _ => 400, fun _ => 300⟩ 200
          ⟨1, "1", "d", "l", "x", some "u"⟩) ∧
    scaledImageHeight ⟨fun _ _ => 10, fun _ => 400, fun _ => 300⟩ 200
        ⟨1, "1", "d", "l", "x", some "u"⟩
      = 300 * (((200 - 5) * (60 / 100)) / 400) ∧
    scaledImageHeight ⟨fun _ _ => 10, fun _ => 400, fun _ => 300⟩ 200
        ⟨2, "2", "d", "l", "y", none⟩ = 0 := by
  have h1 := calculateEntryHeight_spec ⟨fun _ _ => 10, fun _ => 400, fun _ => 300⟩ 200
    ⟨1, "1", "d", "l", "x", some "u"⟩
  have h2 := calculateEntryHeight_spec ⟨fun _ _ => 10, fun _ => 400, fun _ => 300⟩ 200
    ⟨2, "2", "d", "l", "y", none⟩
  exact ⟨h1.1, h1.2.2 "u" rfl, h2.2.1 rfl⟩

/-! ## The image normalizer (`handleImageChange` crop math)

The pass-through / centered-crop policy of the Electron-free variant:
portrait images (`height > width`) are stored unchanged; landscape or
square images are center-cropped to 4:3 and redrawn on a 1200-wide
canvas whose height is `1200 / (4/3) = 900`. -/

/-- The outcome of the upload normalization for a decoded image of size
`w × h`: either the original data url is stored unchanged, or a source
crop rectangle `(sx, sy, sourceWidth, sourceHeight)` is drawn onto an
output canvas of size `outW × outH` and that canvas is stored. -/
inductive CropOutcome where
  | passthrough
  | cropped (sx sy sourceWidth sourceHeight outW outH : ℚ)
deriving DecidableEq

/-- The crop decision of `handleImageChange`: portrait images pass
through; otherwise crop the sides when wider than 4:3, else crop
top/bottom, always centered, onto a 1200×900 canvas. -/
def normalizeUpload (w h : ℚ) : CropOutcome :=
  if h > w then .passthrough
  else
    let targetAspect : ℚ := 4 / 3
    let sourceAspect := w / h
    let outputWidth : ℚ := 1200
    if sourceAspect > targetAspect then
      .cropped ((w - h * targetAspect) / 2) 0 (h * targetAspect) h
        outputWidth (outputWidth / targetAspect)
    else
      .cropped 0 ((h - w / targetAspect) / 2) w (w / targetAspect)
        outputWidth (outputWidth / targetAspect)

/-- The stored `imageUrl` after an upload: the original decoded data url
on pass-through, otherwise the canvas encoding of the crop (the canvas
encoder is an external collaborator, abstracted as `encodeCanvas`). -/
def storedImageUrl (encodeCanvas : CropOutcome → String) (dataUrl : String)
    (w h : ℚ) : String :=
  match normalizeUpload w h with
  | .passthrough => dataUrl
  | c => encodeCanvas c

/-- Claim C7: for every image with `0 < h` and `w / h > 4 / 3`, the crop
keeps the full height `h`, has width `h * (4/3)` and origin
`sx = (w - h * (4/3)) / 2`, `sy = 0`, on an output canvas of 4:3 aspect;
in particular a 1600×900 image is cropped to width 1200 at `sx = 200`,
`sy = 0`. -/
theorem normalizeUpload_wideLandscape (w h : ℚ) (hpos : 0 < h)
    (hwide : w / h > 4 / 3) :
    normalizeUpload w h
        = .cropped ((w - h * (4 / 3)) / 2) 0 (h * (4 / 3)) h 1200 (1200 / (4 / 3)) ∧
    (1200 : ℚ) / (1200 / (4 / 3)) = 4 / 3 ∧
    normalizeUpload 1600 900 = .cropped 200 0 1200 900 1200 900 := by
  have hwh : h < w := by
    have h1 : (4 / 3 : ℚ) * h < w := (lt_div_iff₀ hpos).mp hwide
    nlinarith
  refine ⟨?_, by norm_num, ?_⟩
  · unfold normalizeUpload
    rw [if_neg (not_lt.mpr (le_of_lt hwh))]
    dsimp only
    rw [if_pos hwide]
  · unfold normalizeUpload
    rw [if_neg (by norm_num)]
    dsimp only
    rw [if_pos (by norm_num)]
    norm_num

/-- Claim C7 witness: the wide-landscape crop instantiated at the
concrete 1600×900 image of the claim. -/
theorem normalizeUpload_wideLandscape_witness :
    normalizeUpload 1600 900
        = .cropped ((1600 - 900 * (4 / 3)) / 2) 0 (900 * (4 / 3)) 900 1200 (1200 / (4 / 3)) ∧
    (1200 : ℚ) / (1200 / (4 / 3)) = 4 / 3 ∧
    normalizeUpload 1600 900 = .cropped 200 0 1200 900 1200 900 :=
  normalizeUpload_wideLandscape 1600 900 (by norm_num) (by norm_num)

/-- Claim C8: every portrait image (`h > w`) passes through unchanged —
the stored `imageUrl` is exactly the original decoded data url, so the
original dimensions and aspect ratio are preserved. -/
theorem normalizeUpload_portrait (encodeCanvas : CropOutcome → String)
    (dataUrl : String) (w h : ℚ) (hport : h > w) :
    normalizeUpload w h = .passthrough ∧
    storedImageUrl encodeCanvas dataUrl w h = dataUrl := by
  have hn : normalizeUpload w h = .passthrough := by
    unfold normalizeUpload
    rw [if_pos hport]
  exact ⟨hn, by unfold storedImageUrl; rw [hn]⟩

/-- Claim C8 witness: a concrete 900×1600 portrait upload stores the
original data url. -/
theorem normalizeUpload_portrait_witness :
    normalizeUpload 900 1600 = .passthrough ∧
    storedImageUrl (fun _ => "cropped") "original" 900 1600 = "original" :=
  normalizeUpload_portrait (fun _ => "cropped") "original" 900 1600 (by norm_num)

/-! ## The form validator (`validateForm` in `App.tsx`) and the export
gate of `handleSavePdf`

Errors are flat string keys: a header field's name, or
`photo-{id}-{field}` for an entry field.  A field is flagged exactly
when its value is the empty string (JS falsiness — no trimming), or for
`imageUrl` when it is null.  A non-empty error set makes `handleSavePdf`
return before any PDF is produced. -/

/-- The error-key prefix `photo-{id}-` for one entry. -/
def photoErrorPrefix (p : PhotoData) : String := "photo-" ++ Nat.repr p.id ++ "-"

/-- The error keys contributed by one photo entry. -/
def photoErrorKeys (p : PhotoData) : List String :=
  (if p.date = "" then [photoErrorPrefix p ++ "date"] else [])
  ++ (if p.location = "" then [photoErrorPrefix p ++ "location"] else [])
  ++ (if p.description = "" then [photoErrorPrefix p ++ "description"] else [])
  ++ (if p.imageUrl = none then [photoErrorPrefix p ++ "imageUrl"] else [])

/-- `validateForm` from `App.tsx`: each empty header field contributes
its key, then each photo contributes its `photo-{id}-{field}` keys. -/
def validateForm (hd : HeaderData) (photos : List PhotoData) : List String :=
  (if hd.proponent = "" then ["proponent"] else [])
  ++ (if hd.projectName = "" then ["projectName"] else [])
  ++ (if hd.location = "" then ["location"] else [])
  ++ (if hd.date = "" then ["date"] else [])
  ++ (if hd.projectNumber = "" then ["projectNumber"] else [])
  ++ photos.flatMap photoErrorKeys

/-- The filename sanitizer `name.replace(/[^a-z0-9_]/gi, '-').toLowerCase()`. -/
def sanitizeFileChar (c : Char) : Char :=
  if ('a' ≤ c ∧ c ≤ 'z') ∨ ('A' ≤ c ∧ c ≤ 'Z') ∨ ('0' ≤ c ∧ c ≤ '9') ∨ c = '_'
  then c.toLower else '-'

/-- Sanitize a name for use in the output filename. -/
def sanitizeName (s : String) : String := s.map sanitizeFileChar

/-- JS `sanitize(x) || fallback`. -/
def stringOrDefault (s fallback : String) : String := if s = "" then fallback else s

/-- The PDF filename built by `handleSavePdf`. -/
def pdfFileName (hd : HeaderData) : String :=
  stringOrDefault (sanitizeName hd.projectNumber) "project" ++ "_"
    ++ stringOrDefault (sanitizeName hd.projectName) "photolog" ++ "_Photolog.pdf"

/-- `handleSavePdf` as a whole: if validation reports any error the
function returns with no file produced; otherwise it lays out the pages
and hands a named PDF to the save dialog. -/
def handleSavePdf (cfg : PdfLayoutConfig) (measure : PhotoData → ℚ)
    (hd : HeaderData) (photos : List PhotoData) :
    Option (String × List (List PhotoData × String)) :=
  if validateForm hd photos = [] then
    some (pdfFileName hd, pdfPages cfg measure photos)
  else none

/-- JS `s.trim() === ''`: a string trims to empty exactly when every
character is whitespace. -/
def trimsToEmpty (s : String) : Bool := s.data.all Char.isWhitespace

/-- A singleton-or-empty conditional list is empty iff the condition
fails. -/
theorem ite_singleton_eq_nil {c : Prop} [Decidable c] (x : String) :
    ((if c then [x] else []) = ([] : List String)) ↔ ¬c := by
  split <;> simp_all

/-- Membership in a singleton-or-empty conditional list forces the
element. -/
theorem mem_ite_singleton {c : Prop} [Decidable c] {x a : String}
    (h : a ∈ (if c then [x] else ([] : List String))) : a = x := by
  split at h
  · simpa using h
  · simp at h

/-- Two strings with different final characters differ, stated through
appended suffixes. -/
theorem ne_of_reverse_head (u v : String) (c d : Char) (ru rv : List Char)
    (hu : u.data.reverse = c  :: ru) (hv : v.data.reverse = d  :: rv) (hcd : c ≠ d) :
    u ≠ v := by
  intro h
  have hr : u.data.reverse = v.data.reverse := by rw [h]
  rw [hu, hv] at hr
  injection hr with h1 h2
  exact hcd h1

/-- Reversed character data of a `... ++ "photoNumber"` error key. -/
theorem reverse_data_photoNumber (pre : String) :
    (pre ++ "photoNumber").data.reverse
      = 'r' :: 'e' :: 'b' :: 'm' :: 'u' :: 'N' :: 'o' :: 't' :: 'o' :: 'h' :: 'p' :: pre.data.reverse := by
  rw [String.data_append, List.reverse_append]
  rfl

/-- Reversed character data of a `... ++ "date"` error key. -/
theorem reverse_data_date (pre : String) :
    (pre ++ "date").data.reverse = 'e' :: 't' :: 'a' :: 'd' :: pre.data.reverse := by
  rw [String.data_append, List.reverse_append]
  rfl

/-- Reversed character data of a `... ++ "location"` error key. -/
theorem reverse_data_location (pre : String) :
    (pre ++ "location").data.reverse
      = 'n' :: 'o' :: 'i' :: 't' :: 'a' :: 'c' :: 'o' :: 'l' :: pre.data.reverse := by
  rw [String.data_append, List.reverse_append]
  rfl

/-- Reversed character data of a `... ++ "description"` error key. -/
theorem reverse_data_description (pre : String) :
    (pre ++ "description").data.reverse
      = 'n' :: 'o' :: 'i' :: 't' :: 'p' :: 'i' :: 'r' :: 'c' :: 's' :: 'e' :: 'd' :: pre.data.reverse := by
  rw [String.data_append, List.reverse_append]
  rfl

/-- Reversed character data of a `... ++ "imageUrl"` error key. -/
theorem reverse_data_imageUrl (pre : String) :
    (pre ++ "imageUrl").data.reverse
      = 'l' :: 'r' :: 'U' :: 'e' :: 'g' :: 'a' :: 'm' :: 'i' :: pre.data.reverse := by
  rw [String.data_append, List.reverse_append]
  rfl

/-- The header key `projectNumber` is shorter than any
`photo-{id}-photoNumber` key, hence distinct from it. -/
theorem projectNumber_ne_photoNumberKey (p : PhotoData) :
    ("projectNumber" : String) ≠ photoErrorPrefix p ++ "photoNumber" := by
  intro h
  have hlen := congrArg String.length h
  unfold photoErrorPrefix at hlen
  rw [String.length_append, String.length_append, String.length_append] at hlen
  have h1 : ("projectNumber" : String).length = 13 := rfl
  have h2 : ("photo-" : String).length = 6 := rfl
  have h3 : ("-" : String).length = 1 := rfl
  have h4 : ("photoNumber" : String).length = 11 := rfl
  omega

/-- Any key produced by `validateForm` is a header field name or a
`photo-{id}-{field}` key of one of the four entry fields. -/
theorem validateForm_mem_cases (hd : HeaderData) (photos : List PhotoData) (k : String)
    (hk : k ∈ validateForm hd photos) :
    k = "proponent" ∨ k = "projectName" ∨ k = "location" ∨ k = "date"
      ∨ k = "projectNumber"
      ∨ ∃ p, p ∈ photos ∧
          (k = photoErrorPrefix p ++ "date" ∨ k = photoErrorPrefix p ++ "location"
            ∨ k = photoErrorPrefix p ++ "description"
            ∨ k = photoErrorPrefix p ++ "imageUrl") := by
  unfold validateForm at hk
  simp only [List.mem_append, or_assoc] at hk
  rcases hk with h | h | h | h | h | h
  · exact Or.inl (mem_ite_singleton h)
  · exact Or.inr (Or.inl (mem_ite_singleton h))
  · exact Or.inr (Or.inr (Or.inl (mem_ite_singleton h)))
  · exact Or.inr (Or.inr (Or.inr (Or.inl (mem_ite_singleton h))))
  · exact Or.inr (Or.inr (Or.inr (Or.inr (Or.inl (mem_ite_singleton h)))))
  · rw [List.mem_flatMap] at h
    obtain ⟨p, hp, hkp⟩ := h
    refine Or.inr (Or.inr (Or.inr (Or.inr (Or.inr ⟨p, hp, ?_⟩))))
    unfold photoErrorKeys at hkp
    simp only [List.mem_append, or_assoc] at hkp
    rcases hkp with h | h | h | h
    · exact Or.inl (mem_ite_singleton h)
    · exact Or.inr (Or.inl (mem_ite_singleton h))
    · exact Or.inr (Or.inr (Or.inl (mem_ite_singleton h)))
    · exact Or.inr (Or.inr (Or.inr (mem_ite_singleton h)))

/-- A photo's error keys vanish iff all four entry fields are present. -/
theorem photoErrorKeys_eq_nil (p : PhotoData) :
    photoErrorKeys p = [] ↔
      (p.date ≠ "" ∧ p.location ≠ "" ∧ p.description ≠ "" ∧ p.imageUrl ≠ none) := by
  unfold photoErrorKeys
  simp only [List.append_eq_nil, ite_singleton_eq_nil]
  tauto

/-- Claim C5 (amended): the `validateForm` error set is empty exactly
when every header field is a non-empty string, and every photo has
non-empty date, location and description strings and a non-null image —
emptiness is tested without trimming, so a whitespace-only value
passes.  A `photo-{id}-photoNumber` key is never produced, and
`handleSavePdf` produces a (named) PDF exactly when the error set is
empty, returning with no file otherwise. -/
theorem validateForm_spec (hd : HeaderData) (photos : List PhotoData) :
    (validateForm hd photos = [] ↔
      (hd.proponent ≠ "" ∧ hd.projectName ≠ "" ∧ hd.location ≠ "" ∧ hd.date ≠ ""
        ∧ hd.projectNumber ≠ "" ∧
        ∀ p ∈ photos, p.date ≠ "" ∧ p.location ≠ "" ∧ p.description ≠ ""
          ∧ p.imageUrl ≠ none)) ∧
    (∀ p ∈ photos, (photoErrorPrefix p ++ "photoNumber") ∉ validateForm hd photos) ∧
    (∀ cfg : PdfLayoutConfig, ∀ measure : PhotoData → ℚ,
      (validateForm hd photos = [] →
        handleSavePdf cfg measure hd photos
          = some (pdfFileName hd, pdfPages cfg measure photos)) ∧
      (validateForm hd photos ≠ [] → handleSavePdf cfg measure hd photos = none)) := by
  refine ⟨?_, ?_, ?_⟩
  · unfold validateForm
    simp only [List.append_eq_nil, ite_singleton_eq_nil, List.flatMap_eq_nil_iff,
      photoErrorKeys_eq_nil, ne_eq]
    tauto
  · intro p hp hmem
    rcases validateForm_mem_cases hd photos _ hmem with h | h | h | h | h | h
    · exact ne_of_reverse_head _ _ 't' 'r' _ _ (by rfl)
        (reverse_data_photoNumber (photoErrorPrefix p)) (by decide) h.symm
    · exact ne_of_reverse_head _ _ 'e' 'r' _ _ (by rfl)
        (reverse_data_photoNumber (photoErrorPrefix p)) (by decide) h.symm
    · exact ne_of_reverse_head _ _ 'n' 'r' _ _ (by rfl)
        (reverse_data_photoNumber (photoErrorPrefix p)) (by decide) h.symm
    · exact ne_of_reverse_head _ _ 'e' 'r' _ _ (by rfl)
        (reverse_data_photoNumber (photoErrorPrefix p)) (by decide) h.symm
    · exact projectNumber_ne_photoNumberKey p h.symm
    · obtain ⟨q, _, hcase⟩ := h
      rcases hcase with h | h | h | h
      · exact ne_of_reverse_head _ _ 'r' 'e' _ _
          (reverse_data_photoNumber (photoErrorPrefix p))
          (reverse_data_date (photoErrorPrefix q)) (by decide) h
      · exact ne_of_reverse_head _ _ 'r' 'n' _ _
          (reverse_data_photoNumber (photoErrorPrefix p))
          (reverse_data_location (photoErrorPrefix q)) (by decide) h
      · exact ne_of_reverse_head _ _ 'r' 'n' _ _
          (reverse_data_photoNumber (photoErrorPrefix p))
          (reverse_data_description (photoErrorPrefix q)) (by decide) h
      · exact ne_of_reverse_head _ _ 'r' 'l' _ _
          (reverse_data_photoNumber (photoErrorPrefix p))
          (reverse_data_imageUrl (photoErrorPrefix q)) (by decide) h
  · intro cfg measure
    constructor
    · intro hempty
      unfold handleSavePdf
      rw [if_pos hempty]
    · intro hnonempty
      unfold handleSavePdf
      rw [if_neg hnonempty]

/-- Claim C5 counterexample: a header whose `proponent` is a single
space trims to empty — so the claim marks it invalid and requires the
export to be blocked — yet `validateForm` (which tests plain emptiness,
not trimmed emptiness) reports no error and `handleSavePdf` proceeds to
produce a file. -/
theorem validateForm_trim_counterexample :
    trimsToEmpty " " = true ∧
    validateForm ⟨" ", "x", "x", "x", "x"⟩ [] = [] ∧
    handleSavePdf ⟨250, 15, 15, 35⟩ (fun _ => 100) ⟨" ", "x", "x", "x", "x"⟩ [] ≠ none := by
  refine ⟨rfl, rfl, ?_⟩
  unfold handleSavePdf
  rw [if_pos (show validateForm ⟨" ", "x", "x", "x", "x"⟩ [] = [] from rfl)]
  exact Option.some_ne_none _

/-- Claim C5 witness: the amended validator specification applied to a
concrete valid header/photo pair — the error set is empty, the
`photo-3-photoNumber` key is absent, and the export runs — and to a
header with an empty proponent, where the export is blocked. -/
theorem validateForm_spec_witness :
    validateForm ⟨"a", "b", "c", "d", "e"⟩ [⟨3, "1", "d", "l", "x", some "u"⟩] = [] ∧
    (photoErrorPrefix ⟨3, "1", "d", "l", "x", some "u"⟩ ++ "photoNumber")
      ∉ validateForm ⟨"a", "b", "c", "d", "e"⟩ [⟨3, "1", "d", "l", "x", some "u"⟩] ∧
    handleSavePdf ⟨250, 15, 15, 35⟩ (fun _ => 100) ⟨"a", "b", "c", "d", "e"⟩
        [⟨3, "1", "d", "l", "x", some "u"⟩]
      = some (pdfFileName ⟨"a", "b", "c", "d", "e"⟩,
          pdfPages ⟨250, 15, 15, 35⟩ (fun _ => 100) [⟨3, "1", "d", "l", "x", some "u"⟩]) ∧
    handleSavePdf ⟨250, 15, 15, 35⟩ (fun _ => 100) ⟨"", "b", "c", "d", "e"⟩ [] = none := by
  have h1 := validateForm_spec ⟨"a", "b", "c", "d", "e"⟩ [⟨3, "1", "d", "l", "x", some "u"⟩]
  have h2 := validateForm_spec ⟨"", "b", "c", "d", "e"⟩ ([] : List PhotoData)
  refine ⟨?_, ?_, ?_, ?_⟩
  · exact h1.1.mpr (by decide)
  · exact h1.2.1 ⟨3, "1", "d", "l", "x", some "u"⟩ (by decide)
  · exact (h1.2.2 ⟨250, 15, 15, 35⟩ (fun _ => 100)).1 (h1.1.mpr (by decide))
  · exact (h2.2.2 ⟨250, 15, 15, 35⟩ (fun _ => 100)).2 (by decide)

/-! ## Project save/load round-trip (`handleSaveProject` /
`handleLoadProject`)

`handleSaveProject` serializes `{ headerData, photosData }` as JSON;
`handleLoadProject` parses it back and restores both pieces of state.
The JSON text encoding is the external `JSON.stringify`/`JSON.parse`
pair, which is faithful on this value shape, so the round-trip is
modelled on the JSON value tree. -/

/-- A JSON value as produced for a project snapshot (the only numbers
are the natural-number entry ids). -/
inductive Json where
  | null
  | str (s : String)
  | num (n : Nat)
  | arr (elems : List Json)
  | obj (fields : List (String × Json))

/-- The JSON object for a header record. -/
def headerToJson (hd : HeaderData) : Json :=
  .obj [("proponent", .str hd.proponent), ("projectName", .str hd.projectName),
        ("location", .str hd.location), ("date", .str hd.date),
        ("projectNumber", .str hd.projectNumber)]

/-- The JSON object for one photo entry; a null image stays null. -/
def photoToJson (p : PhotoData) : Json :=
  .obj [("id", .num p.id), ("photoNumber", .str p.photoNumber), ("date", .str p.date),
        ("location", .str p.location), ("description", .str p.description),
        ("imageUrl", match p.imageUrl with | none => .null | some s => .str s)]

/-- `handleSaveProject`: the serialized state `{ headerData, photosData }`. -/
def handleSaveProjectJson (hd : HeaderData) (photos : List PhotoData) : Json :=
  .obj [("headerData", headerToJson hd), ("photosData", .arr (photos.map photoToJson))]

/-- Key lookup in a JSON object's field list. -/
def jsonLookup (fields : List (String × Json)) (key : String) : Option Json :=
  match fields.find? (fun kv => kv.1 == key) with
  | some kv => some kv.2
  | none => none

/-- Read a JSON string. -/
def asString : Json → Option String
  | .str s => some s
  | _ => none

/-- Read a JSON number as an entry id. -/
def asNat : Json → Option Nat
  | .num n => some n
  | _ => none

/-- Read a nullable JSON string (the `imageUrl` field). -/
def asNullableString : Json → Option (Option String)
  | .null => some none
  | .str s => some (some s)
  | _ => none

/-- Decode a header record from its JSON object. -/
def decodeHeader : Json → Option HeaderData
  | .obj fields =>
    (jsonLookup fields "proponent").bind fun j1 =>
    (asString j1).bind fun proponent =>
    (jsonLookup fields "projectName").bind fun j2 =>
    (asString j2).bind fun projectName =>
    (jsonLookup fields "location").bind fun j3 =>
    (asString j3).bind fun location =>
    (jsonLookup fields "date").bind fun j4 =>
    (asString j4).bind fun date =>
    (jsonLookup fields "projectNumber").bind fun j5 =>
    (asString j5).bind fun projectNumber =>
    some ⟨proponent, projectName, location, date, projectNumber⟩
  | _ => none

/-- Decode one photo entry from its JSON object. -/
def decodePhoto : Json → Option PhotoData
  | .obj fields =>
    (jsonLookup fields "id").bind fun j0 =>
    (asNat j0).bind fun pid =>
    (jsonLookup fields "photoNumber").bind fun j1 =>
    (asString j1).bind fun photoNumber =>
    (jsonLookup fields "date").bind fun j2 =>
    (asString j2).bind fun date =>
    (jsonLookup fields "location").bind fun j3 =>
    (asString j3).bind fun location =>
    (jsonLookup fields "description").bind fun j4 =>
    (asString j4).bind fun description =>
    (jsonLookup fields "imageUrl").bind fun j5 =>
    (asNullableString j5).bind fun imageUrl =>
    some ⟨pid, photoNumber, date, location, description, imageUrl⟩
  | _ => none

/-- Decode the photo array element-wise. -/
def decodePhotos : List Json → Option (List PhotoData)
  | [] => some []
  | j  :: js =>
    (decodePhoto j).bind fun p =>
    (decodePhotos js).bind fun ps =>
    some (p  :: ps)

/-- `handleLoadProject`: destructure `headerData` and `photosData` from
the parsed object (the list must be an array) and rebuild the state;
any shape mismatch rejects the file. -/
def handleLoadProject (j : Json) : Option (HeaderData × List PhotoData) :=
  match j with
  | .obj fields =>
    (jsonLookup fields "headerData").bind fun hj =>
    (jsonLookup fields "photosData").bind fun pj =>
    (decodeHeader hj).bind fun hd =>
    (match pj with
     | .arr elems => decodePhotos elems
     | _ => none).bind fun photos =>
    some (hd, photos)
  | _ => none

/-- Decoding inverts encoding on a single photo entry. -/
theorem decodePhoto_photoToJson (p : PhotoData) : decodePhoto (photoToJson p) = some p := by
  rcases p with ⟨pid, pn, d, loc, desc, img⟩
  cases img <;> rfl

/-- Decoding inverts encoding on the photo list. -/
theorem decodePhotos_map (photos : List PhotoData) :
    decodePhotos (photos.map photoToJson) = some photos := by
  induction photos with
  | nil => rfl
  | cons p ps ih =>
    rw [List.map_cons]
    unfold decodePhotos
    rw [decodePhoto_photoToJson]
    simp [ih]

/-- Claim C9: loading the saved project JSON restores exactly the same
header record and entry list:
`handleLoadProject (handleSaveProjectJson hd photos) = some (hd, photos)`
for every header and photo list. -/
theorem saveLoadProject_roundTrip (hd : HeaderData) (photos : List PhotoData) :
    handleLoadProject (handleSaveProjectJson hd photos) = some (hd, photos) := by
  rcases hd with ⟨a, b, c, d, e⟩
  have h1 : handleLoadProject (handleSaveProjectJson ⟨a, b, c, d, e⟩ photos)
      = (decodePhotos (photos.map photoToJson)).bind
          fun ps => some (⟨a, b, c, d, e⟩, ps) := rfl
  rw [h1, decodePhotos_map]
  rfl

end PhotoLog
